import Mathlib

/-!
Verification development for `aaftimelineparser.py`: a shallow embedding of
the clip-range consolidation and frame-accurate command generation pipeline.

Modelling conventions:
* Python floats (seconds, frame rates) are embedded as `ℚ`; Python ints as `ℤ`.
* Python `round` (banker's rounding, round-half-to-even) is `pyRound`.
* The external media-metadata reader `get_source_rate` is a parameter
  `lookup : String → Option ℚ`; `none` models the exception raised when the
  media's frame rate cannot be read.
* The global `args.handle` configuration is an `Option ℤ`: argparse declares
  `--handle` with `type=int, required=False` and no default, so an omitted
  flag yields Python `None`.
* Exceptions are modelled by returning the list state together with
  `Option String` (the raised message); an exception aborts the remainder
  of the traversal, leaving later elements untouched, exactly as in CPython.
-/

/-- The `CutClip` dataclass: a source path with a seconds range and the
frame range fields filled in later by `apply_handle`. -/
structure CutClip where
  path : String
  start : ℚ
  duration : ℚ
  bmx_start_frames : ℤ := 0
  bmx_duration_frames : ℤ := 0
deriving DecidableEq, Repr

/-- `CutClipList` is a Python `list` subclass; we model it as `List CutClip`. -/
abbrev CutClipList := List CutClip

/-- `CutClipList.append`: scans for an existing entry with the same path; if
found, updates `start` when the new item starts earlier, then updates
`duration` when the new end (compared against the end computed BEFORE the
start update) lies beyond it, the new duration being measured from the
possibly-updated start; no duplicate is appended.  Otherwise the item is
appended at the end.  (The `isinstance` TypeError guard is enforced by the
Lean type of the argument.) -/
def CutClipList.append : CutClipList → CutClip → CutClipList
  | [], item => [item]
  | existing :: rest, item =>
    if existing.path = item.path then
      let existing_end := existing.start + existing.duration
      let new_end := item.start + item.duration
      let start2 := if item.start < existing.start then item.start else existing.start
      let duration2 := if new_end > existing_end then new_end - start2 else existing.duration
      { existing with start := start2, duration := duration2 } :: rest
    else
      existing :: CutClipList.append rest item

/-- First entry of the list whose `path` equals `p` (the entry the
`for existing in self` scan of `CutClipList.append` would find). -/
def findPath (p : String) : List CutClip → Option CutClip
  | [] => none
  | c :: cs => if c.path = p then some c else findPath p cs

/-- Number of entries of the list whose `path` equals `p`. -/
def pathCount (p : String) (l : List CutClip) : ℕ :=
  (l.filter (fun c => c.path == p)).length

/-- Python `round`: round half to even (banker's rounding). -/
def pyRound (q : ℚ) : ℤ :=
  let f := Int.floor q
  let frac := q - (f : ℚ)
  if frac < 1/2 then f
  else if 1/2 < frac then f + 1
  else if f % 2 = 0 then f else f + 1

/-- Body of the `apply_handle` loop for one clip whose source frame rate is
`rate` and with an integer handle `h`: convert the seconds range to frames,
clamp the leading pad by `reduction = min(handle, start_frames)`, and store
the rounded frame range (the unrounded assignments on the two preceding
source lines are immediately overwritten, so only the rounded values
survive). -/
def cutFrames (h : ℤ) (rate : ℚ) (clip : CutClip) : CutClip :=
  let start_frames := clip.start * rate
  let duration_frames := clip.duration * rate
  let reduction := min (h : ℚ) start_frames
  { clip with
      bmx_start_frames := pyRound (start_frames - reduction),
      bmx_duration_frames := pyRound ((h : ℚ) + reduction + duration_frames) }

/-- `apply_handle(clips, handle)`: sequential loop over the clips.  A failed
frame-rate lookup raises (modelled as the `MediaInfoError` message), and a
`None` handle raises `TypeError` at `min(handle, start_frames)`.  An
exception stops the traversal: clips already processed keep their updated
frame fields, the failing clip and all later clips are returned untouched,
and the message is propagated. -/
def apply_handle (lookup : String → Option ℚ) (handle : Option ℤ) :
    List CutClip → List CutClip × Option String
  | [] => ([], none)
  | clip :: rest =>
    match lookup clip.path with
    | none => (clip :: rest, some ("MediaInfoError: " ++ clip.path))
    | some rate =>
      match handle with
      | none => (clip :: rest, some "TypeError: min of int and NoneType")
      | some h =>
        let r := apply_handle lookup handle rest
        (cutFrames h rate clip :: r.1, r.2)

/-- The effect of the `apply_handle` loop body on one clip when no exception
occurs (used to describe the result list of a successful pass). -/
def applyHandlePure (lookup : String → Option ℚ) (h : ℤ) (clip : CutClip) : CutClip :=
  match lookup clip.path with
  | some rate => cutFrames h rate clip
  | none => clip

/-- `pathlib.Path(...).name`: the final path component (text after the last
`/` or `\` separator). -/
def pathName (s : String) : String :=
  (s.toList.foldl (fun acc ch => if ch = '/' ∨ ch = '\\' then [] else acc ++ [ch]) []).asString

/-- One iteration of the `generate_bmx` command-string construction: the
pieces list joined by single spaces, with the output file placed under
`output_path` using the input's base name. -/
def buildCmd (bmxtranswrap output_path : String) (clip : CutClip) : String :=
  String.intercalate " "
    [bmxtranswrap ++ " -t op1a -o \"" ++ (output_path ++ "/" ++ pathName clip.path) ++ "\" --start ",
     toString clip.bmx_start_frames,
     " --dur ",
     toString clip.bmx_duration_frames,
     " \"" ++ clip.path ++ "\""]

/-- `generate_bmx(clips, output_path, bmxtranswrap)`: first runs
`apply_handle(clips, args.handle)` — mutating every clip's frame fields and
reading the global handle configuration — then builds one command string per
clip.  An exception from `apply_handle` propagates before any command is
built.  The implicit dependencies (media lookup, global `args.handle`) are
made explicit parameters here. -/
def generate_bmx (lookup : String → Option ℚ) (handle : Option ℤ)
    (clips : List CutClip) (output_path bmxtranswrap : String) :
    (List String × List CutClip) × Option String :=
  let r := apply_handle lookup handle clips
  match r.2 with
  | some e => (([], r.1), some e)
  | none => ((r.1.map (buildCmd bmxtranswrap output_path), r.1), none)

/-- The parsed `--handle` value: argparse declares it `type=int,
required=False` with NO `default=`, so omitting the flag yields `None`
(`none`), which `generate_bmx` passes straight to `apply_handle`. -/
def parsed_handle (cli : Option ℤ) : Option ℤ := cli

/-- Behaviour of `subprocess.run` on one command: either it completed with
an exit code and captured output, or launching raised an exception. -/
inductive ExecResult where
  | completed (returncode : ℤ) (stdout stderr : String)
  | raised (message : String)

/-- The dict returned by `run_command`. -/
structure CommandOutcome where
  cmd : String
  returncode : ℤ
  stdout : String
  stderr : String
  success : Bool
deriving DecidableEq, Repr

/-- `run_command(cmd)`: captures exit code and output with
`success = (returncode == 0)`; a raised exception is converted into
`returncode = -1, success = False` with the message in `stderr`. -/
def run_command (exec : String → ExecResult) (cmd : String) : CommandOutcome :=
  match exec cmd with
  | .completed rc out err =>
    { cmd := cmd, returncode := rc, stdout := out, stderr := err, success := rc == 0 }
  | .raised msg =>
    { cmd := cmd, returncode := -1, stdout := "", stderr := msg, success := false }

/-- `execute_bmx(cmds)`: runs every command (the thread pool changes only
completion order, which the aggregation does not depend on; we model the
collected outcomes in submission order), then exits with status 2 when any
outcome failed and status 0 otherwise. -/
def execute_bmx (exec : String → ExecResult) (cmds : List String) :
    List CommandOutcome × ℕ :=
  let results := cmds.map (run_command exec)
  (results, if results.any (fun r => !r.success) then 2 else 0)

lemma pyRound_nonneg {q : ℚ} (h : 0 ≤ q) : 0 ≤ pyRound q := by
  have hf : 0 ≤ Int.floor q := Int.floor_nonneg.mpr h
  simp only [pyRound]
  split_ifs <;> omega

lemma pyRound_intCast (n : ℤ) : pyRound ((n : ℚ)) = n := by
  simp [pyRound, Int.floor_intCast]

lemma apply_handle_cons_ok (lookup : String → Option ℚ) (h : ℤ) (clip : CutClip)
    (rest : List CutClip) (rate : ℚ) (hr : lookup clip.path = some rate) :
    apply_handle lookup (some h) (clip :: rest) =
      (cutFrames h rate clip :: (apply_handle lookup (some h) rest).1,
       (apply_handle lookup (some h) rest).2) := by
  simp [apply_handle, hr]

lemma applyHandlePure_of_lookup (lookup : String → Option ℚ) (h : ℤ) (clip : CutClip)
    (rate : ℚ) (hr : lookup clip.path = some rate) :
    applyHandlePure lookup h clip = cutFrames h rate clip := by
  simp [applyHandlePure, hr]

lemma apply_handle_ok_map (lookup : String → Option ℚ) (h : ℤ) :
    ∀ (clips clips2 : List CutClip),
      apply_handle lookup (some h) clips = (clips2, none) →
      clips2 = clips.map (applyHandlePure lookup h) ∧
        ∀ c ∈ clips, ∃ r, lookup c.path = some r := by
  intro clips
  induction clips with
  | nil =>
    intro clips2 he
    simp [apply_handle] at he
    subst he
    simp
  | cons clip rest ih =>
    intro clips2 he
    cases hl : lookup clip.path with
    | none => simp [apply_handle, hl] at he
    | some rate =>
      rw [apply_handle_cons_ok lookup h clip rest rate hl, Prod.mk.injEq] at he
      obtain ⟨h1, h2⟩ := he
      obtain ⟨hmap, hlk⟩ := ih (apply_handle lookup (some h) rest).1 (by rw [← h2])
      constructor
      · rw [← h1, List.map_cons, ← hmap, applyHandlePure_of_lookup lookup h clip rate hl]
      · intro c hc
        rcases List.mem_cons.mp hc with hc | hc
        · exact ⟨rate, hc ▸ hl⟩
        · exact hlk c hc

lemma pathCount_cons (p : String) (c : CutClip) (l : List CutClip) :
    pathCount p (c :: l) = (if c.path = p then 1 else 0) + pathCount p l := by
  simp only [pathCount, List.filter_cons, beq_iff_eq]
  split_ifs <;> simp [Nat.add_comm]

lemma pathCount_append_of_ne (item : CutClip) (p : String) (hne : item.path ≠ p) :
    ∀ l : CutClipList, pathCount p (CutClipList.append l item) = pathCount p l := by
  intro l
  induction l with
  | nil => simp [CutClipList.append, pathCount, List.filter_cons, hne]
  | cons x xs ih =>
    by_cases hx : x.path = item.path
    · simp only [CutClipList.append, if_pos hx, pathCount_cons]
    · simp only [CutClipList.append, if_neg hx, pathCount_cons, ih]

lemma pathCount_append_le (item : CutClip) (p : String) :
    ∀ l : CutClipList, pathCount p l ≤ 1 → pathCount p (CutClipList.append l item) ≤ 1 := by
  intro l
  induction l with
  | nil =>
    intro _
    simp only [CutClipList.append, pathCount, List.filter_cons, List.filter_nil, beq_iff_eq]
    split_ifs <;> simp
  | cons x xs ih =>
    intro hl
    by_cases hx : x.path = item.path
    · simpa only [CutClipList.append, if_pos hx, pathCount_cons] using hl
    · rw [pathCount_cons] at hl
      simp only [CutClipList.append, if_neg hx, pathCount_cons]
      by_cases hp : x.path = p
      · have hip : item.path ≠ p := fun he => hx (hp.trans he.symm)
        rw [if_pos hp] at hl ⊢
        rw [pathCount_append_of_ne item p hip xs]
        omega
      · rw [if_neg hp] at hl ⊢
        simpa using ih (by simpa using hl)

lemma pathCount_foldl (items : List CutClip) :
    ∀ l : CutClipList, (∀ p, pathCount p l ≤ 1) →
      ∀ p, pathCount p (items.foldl CutClipList.append l) ≤ 1 := by
  induction items with
  | nil => intro l hl p; simpa using hl p
  | cons i is ih =>
    intro l hl p
    rw [List.foldl_cons]
    exact ih (CutClipList.append l i) (fun q => pathCount_append_le i q l (hl q)) p

/-- Claim C9: building a `CutClipList` by any sequence of appends starting
from the empty registry leaves at most one entry per source path. -/
theorem c9_single_entry_per_path (items : List CutClip) (p : String) :
    pathCount p (items.foldl CutClipList.append ([] : CutClipList)) ≤ 1 :=
  pathCount_foldl items [] (fun q => by simp [pathCount]) p

/-- Claim C1 (falsified): the spec's own example — appending
`(start 10, duration 5)` then `(start 2, duration 4)` for the same path —
yields the entry `(start 2, duration 5)` whose interval `[2, 7]` is NOT the
union hull `[2, 15]` (the claimed merged entry was `(start 2, duration 13)`).
The duration guard compares the new end against the end computed before the
start update but never re-extends the duration when only the start moved, so
coverage of the previously inserted interval is lost. -/
theorem c1_append_shrinks_coverage :
    CutClipList.append
        (CutClipList.append ([] : CutClipList) (CutClip.mk "A.mxf" 10 5 0 0))
        (CutClip.mk "A.mxf" 2 4 0 0)
      = [CutClip.mk "A.mxf" 2 5 0 0] ∧
    (CutClip.mk "A.mxf" 2 5 0 0).duration ≠ 13 := by
  constructor
  · norm_num [CutClipList.append]
  · norm_num

/-- Claim C10: an append never increases the stored `start` of the entry
found for a given path — it either leaves it unchanged or lowers it. -/
theorem c10_start_monotone (l : CutClipList) (item : CutClip) (p : String)
    (c c2 : CutClip) (hc : findPath p l = some c)
    (hc2 : findPath p (CutClipList.append l item) = some c2) :
    c2.start ≤ c.start := by
  induction l generalizing c c2 with
  | nil => simp [findPath] at hc
  | cons x xs ih =>
    by_cases hx : x.path = item.path
    · simp only [CutClipList.append, if_pos hx] at hc2
      by_cases hp : x.path = p
      · simp only [findPath, if_pos hp] at hc
        simp only [findPath, hp, if_pos] at hc2
        cases hc
        cases hc2
        dsimp only
        split_ifs with hlt
        · exact le_of_lt hlt
        · exact le_refl _
      · simp only [findPath, if_neg hp] at hc
        simp only [findPath, hp, if_neg, if_false] at hc2
        rw [hc] at hc2
        cases hc2
        exact le_refl _
    · simp only [CutClipList.append, if_neg hx] at hc2
      by_cases hp : x.path = p
      · simp only [findPath, if_pos hp] at hc hc2
        cases hc
        cases hc2
        exact le_refl _
      · simp only [findPath, if_neg hp] at hc hc2
        exact ih c c2 hc hc2

/-- Witness for C10 at the concrete registry `[(A.mxf, 10, 5)]` and the
append of `(A.mxf, 2, 4)`: the entry's start drops from 10 to 2. -/
theorem c10_start_monotone_witness :
    findPath "A.mxf" [CutClip.mk "A.mxf" 10 5 0 0] = some (CutClip.mk "A.mxf" 10 5 0 0) ∧
    findPath "A.mxf"
        (CutClipList.append [CutClip.mk "A.mxf" 10 5 0 0] (CutClip.mk "A.mxf" 2 4 0 0))
      = some (CutClip.mk "A.mxf" 2 5 0 0) ∧
    (CutClip.mk "A.mxf" 2 5 0 0).start ≤ (CutClip.mk "A.mxf" 10 5 0 0).start :=
  ⟨by norm_num [findPath],
   by norm_num [findPath, CutClipList.append],
   c10_start_monotone [CutClip.mk "A.mxf" 10 5 0 0] (CutClip.mk "A.mxf" 2 4 0 0)
     "A.mxf" _ _ (by norm_num [findPath]) (by norm_num [findPath, CutClipList.append])⟩

/-- Claim C2 (counterexample): with a registry of two clips where the
frame-rate lookup fails on the first, `apply_handle` propagates the
exception and returns both clips untouched — the remaining entry
(`good.mxf`, whose rate IS readable) is never converted, contradicting
"reported but still processes all remaining entries". -/
theorem c2_lookup_failure_stops_batch :
    (apply_handle (fun p => if p = "good.mxf" then some (25:ℚ) else none) (some 0)
        [CutClip.mk "bad.mxf" 1 1 0 0, CutClip.mk "good.mxf" 1 1 0 0]).2
      = some "MediaInfoError: bad.mxf" ∧
    (apply_handle (fun p => if p = "good.mxf" then some (25:ℚ) else none) (some 0)
        [CutClip.mk "bad.mxf" 1 1 0 0, CutClip.mk "good.mxf" 1 1 0 0]).1
      = [CutClip.mk "bad.mxf" 1 1 0 0, CutClip.mk "good.mxf" 1 1 0 0] :=
  ⟨rfl, rfl⟩

/-- Claim C2 (amended): a frame-rate lookup failure is NOT a per-entry
failure — the `apply_handle` loop has no per-entry exception handling, so
the first failing entry raises, every entry already processed keeps its
converted frame range, and the failing entry together with all remaining
entries is left unconverted while the exception propagates. -/
theorem c2_amended_lookup_failure_aborts (lookup : String → Option ℚ) (h : ℤ)
    (pre : List CutClip) (clip : CutClip) (post : List CutClip)
    (hpre : ∀ c ∈ pre, ∃ r, lookup c.path = some r)
    (hclip : lookup clip.path = none) :
    apply_handle lookup (some h) (pre ++ clip :: post) =
      (pre.map (applyHandlePure lookup h) ++ clip :: post,
       some ("MediaInfoError: " ++ clip.path)) := by
  revert hpre
  induction pre with
  | nil => intro _; simp [apply_handle, hclip]
  | cons c cs ih =>
    intro hpre
    obtain ⟨r, hr⟩ := hpre c (List.mem_cons_self c cs)
    have ih2 := ih (fun d hd => hpre d (List.mem_cons_of_mem c hd))
    rw [List.cons_append, apply_handle_cons_ok lookup h c (cs ++ clip :: post) r hr, ih2]
    simp [applyHandlePure_of_lookup lookup h c r hr]

/-- Witness for the amended C2: the failing prefix is empty, the first clip
has no readable rate, the second does; the whole pass aborts with the
exception message, returning both entries unchanged. -/
theorem c2_amended_witness :
    apply_handle (fun p => if p = "good.mxf" then some (25:ℚ) else none) (some 0)
        [CutClip.mk "bad.mxf" 1 1 0 0, CutClip.mk "good.mxf" 1 1 0 0]
      = ([CutClip.mk "bad.mxf" 1 1 0 0, CutClip.mk "good.mxf" 1 1 0 0],
         some "MediaInfoError: bad.mxf") :=
  c2_amended_lookup_failure_aborts (fun p => if p = "good.mxf" then some (25:ℚ) else none)
    0 [] (CutClip.mk "bad.mxf" 1 1 0 0) [CutClip.mk "good.mxf" 1 1 0 0]
    (by simp) (by decide)

/-- Claim C5: with a nonnegative handle and nonnegative start frames for
every clip, every final start frame produced by a successful
`apply_handle` pass is nonnegative (the leading pad is clamped by
`reduction = min(handle, start_frames)`). -/
theorem c5_final_start_nonneg (lookup : String → Option ℚ) (h : ℤ)
    (clips clips2 : List CutClip) (h0 : 0 ≤ h)
    (heq : apply_handle lookup (some h) clips = (clips2, none))
    (hs : ∀ c ∈ clips, ∀ r : ℚ, lookup c.path = some r → 0 ≤ c.start * r) :
    ∀ c2 ∈ clips2, 0 ≤ c2.bmx_start_frames := by
  obtain ⟨hmap, hlk⟩ := apply_handle_ok_map lookup h clips clips2 heq
  subst hmap
  intro c2 hc2
  rw [List.mem_map] at hc2
  obtain ⟨c, hc, rfl⟩ := hc2
  obtain ⟨r, hr⟩ := hlk c hc
  rw [applyHandlePure_of_lookup lookup h c r hr]
  have hsr := hs c hc r hr
  simp only [cutFrames]
  apply pyRound_nonneg
  have := min_le_right ((h : ℚ)) (c.start * r)
  linarith

/-- Witness for C5 at the spec's worked example: rate 25, handle 24, clip
`(start 2s, duration 13s)`; the final start frame 26 is nonnegative. -/
theorem c5_witness : 0 ≤ (CutClip.mk "A.mxf" 2 13 26 373).bmx_start_frames :=
  c5_final_start_nonneg (fun _ => some 25) 24 [CutClip.mk "A.mxf" 2 13 0 0]
    [CutClip.mk "A.mxf" 2 13 26 373] (by norm_num)
    (by norm_num [apply_handle, cutFrames, pyRound])
    (by
      intro c hc r hr
      rw [List.mem_singleton] at hc
      subst hc
      have h25 : (25:ℚ) = r := by simpa using hr
      subst h25
      norm_num)
    (CutClip.mk "A.mxf" 2 13 26 373) (by simp)

/-- Claim C6 (counterexample): with rate 25, handle 0 and a clip of
duration 1/50 s (half a frame), the final duration rounds to 0, so
`finalDuration - durationFrames = -1/2` while `handle + reduction = 0`:
the conservation equation fails for fractional frame counts. -/
theorem c6_pad_conservation_cex :
    apply_handle (fun _ => some (25:ℚ)) (some 0) [CutClip.mk "A.mxf" 0 (1/50) 0 0]
      = ([CutClip.mk "A.mxf" 0 (1/50) 0 0], none) ∧
    ¬ (((CutClip.mk "A.mxf" 0 (1/50) 0 0).bmx_duration_frames : ℚ)
          - (CutClip.mk "A.mxf" 0 (1/50) 0 0).duration * 25
        = ((0:ℤ) : ℚ) + min ((0:ℤ) : ℚ) ((CutClip.mk "A.mxf" 0 (1/50) 0 0).start * 25)) := by
  constructor
  · norm_num [apply_handle, cutFrames, pyRound]
  · norm_num

/-- Claim C6 (amended): pad conservation holds exactly whenever the
converted start and duration frame counts are whole numbers: then
`finalDuration - durationFrames = handle + reduction` with
`reduction = min(handle, startFrames) ≤ handle`.  (For fractional frame
counts the identity only holds before the final rounding.) -/
theorem c6_amended_pad_conservation (lookup : String → Option ℚ) (h : ℤ)
    (clips clips2 : List CutClip) (h0 : 0 ≤ h)
    (heq : apply_handle lookup (some h) clips = (clips2, none))
    (i : ℕ) (hi : i < clips.length) (hi2 : i < clips2.length)
    (r : ℚ) (a d : ℤ)
    (hr : lookup (clips[i]).path = some r)
    (ha : (clips[i]).start * r = (a : ℚ))
    (hd : (clips[i]).duration * r = (d : ℚ))
    (ha0 : 0 ≤ a) :
    (clips2[i]).bmx_duration_frames - d = h + min h a ∧ min h a ≤ h := by
  obtain ⟨hmap, _⟩ := apply_handle_ok_map lookup h clips clips2 heq
  subst hmap
  rw [List.getElem_map, applyHandlePure_of_lookup lookup h (clips[i]) r hr]
  simp only [cutFrames]
  rw [ha, hd]
  constructor
  · have hcast : (h:ℚ) + min ((h:ℚ)) ((a:ℚ)) + (d:ℚ) = ((h + min h a + d : ℤ) : ℚ) := by
      push_cast
      ring
    rw [hcast, pyRound_intCast]
    ring
  · exact min_le_left h a

/-- Witness for the amended C6 at the spec's worked example: rate 25,
handle 24, clip `(2s, 13s)` so `startFrames = 50`, `durationFrames = 325`;
final duration 373 satisfies `373 - 325 = 24 + min 24 50 = 48`. -/
theorem c6_witness :
    (CutClip.mk "A.mxf" 2 13 26 373).bmx_duration_frames - 325 = 24 + min 24 50 ∧
    min (24:ℤ) 50 ≤ 24 :=
  c6_amended_pad_conservation (fun _ => some 25) 24 [CutClip.mk "A.mxf" 2 13 0 0]
    [CutClip.mk "A.mxf" 2 13 26 373] (by norm_num)
    (by norm_num [apply_handle, cutFrames, pyRound])
    0 (by norm_num) (by norm_num) 25 50 325
    rfl (by norm_num) (by norm_num) (by norm_num)

/-- Claim C7: a successful `apply_handle` pass with handle 0 is the pure
seconds-to-frames conversion: for each clip (with nonnegative start frames)
the stored frame range is exactly `round(start*rate)`, `round(duration*rate)`. -/
theorem c7_zero_handle_identity (lookup : String → Option ℚ)
    (clips clips2 : List CutClip)
    (heq : apply_handle lookup (some 0) clips = (clips2, none))
    (i : ℕ) (hi : i < clips.length) (hi2 : i < clips2.length)
    (r : ℚ) (hr : lookup (clips[i]).path = some r)
    (hs : 0 ≤ (clips[i]).start * r) :
    (clips2[i]).bmx_start_frames = pyRound ((clips[i]).start * r) ∧
    (clips2[i]).bmx_duration_frames = pyRound ((clips[i]).duration * r) := by
  obtain ⟨hmap, _⟩ := apply_handle_ok_map lookup 0 clips clips2 heq
  subst hmap
  rw [List.getElem_map, applyHandlePure_of_lookup lookup 0 (clips[i]) r hr]
  simp only [cutFrames]
  have hmin : min (((0:ℤ)):ℚ) ((clips[i]).start * r) = 0 := by
    rw [Int.cast_zero]
    exact min_eq_left hs
  rw [hmin]
  constructor <;> norm_num

/-- Witness for C7: rate 25, handle 0, clip `(2s, 13s)`; the frame range is
`round(50) = 50`, `round(325) = 325`. -/
theorem c7_witness :
    (CutClip.mk "A.mxf" 2 13 50 325).bmx_start_frames
        = pyRound ((CutClip.mk "A.mxf" 2 13 0 0).start * 25) ∧
    (CutClip.mk "A.mxf" 2 13 50 325).bmx_duration_frames
        = pyRound ((CutClip.mk "A.mxf" 2 13 0 0).duration * 25) :=
  c7_zero_handle_identity (fun _ => some 25) [CutClip.mk "A.mxf" 2 13 0 0]
    [CutClip.mk "A.mxf" 2 13 50 325]
    (by norm_num [apply_handle, cutFrames, pyRound])
    0 (by norm_num) (by norm_num) 25 rfl (by norm_num)

/-- Claim C3 (code bug evidence): the `--handle` flag has no argparse
default, so omitting it yields `None`, and `generate_bmx` passes that
`None` to `apply_handle`, where `min(handle, start_frames)` raises
`TypeError` on the first clip — instead of defaulting to 0 and performing
the pure unit conversion. -/
theorem c3_omitted_handle_type_error :
    parsed_handle none = none ∧
    generate_bmx (fun _ => some (25:ℚ)) (parsed_handle none)
        [CutClip.mk "A.mxf" 0 1 0 0] "out" "bmx"
      = (([], [CutClip.mk "A.mxf" 0 1 0 0]), some "TypeError: min of int and NoneType") :=
  ⟨rfl, rfl⟩

/-- Claim C4: every outcome collected by `execute_bmx` has
`success = (returncode == 0)`; the exit status is 0 when all outcomes
succeeded and 2 otherwise; an empty command set exits with 0. -/
theorem c4_executor_aggregate (exec : String → ExecResult) (cmds : List String) :
    ((execute_bmx exec cmds).1.all fun o => o.success == (o.returncode == 0)) = true ∧
    ((execute_bmx exec cmds).2
        = if ((execute_bmx exec cmds).1.all fun o => o.success) then 0 else 2) ∧
    execute_bmx exec [] = ([], 0) := by
  refine ⟨?_, ?_, rfl⟩
  · rw [List.all_eq_true]
    intro o ho
    simp only [execute_bmx] at ho
    rw [List.mem_map] at ho
    obtain ⟨cmd, _, rfl⟩ := ho
    unfold run_command
    cases exec cmd <;> simp
  · simp only [execute_bmx, List.all_eq_not_any_not]
    cases ((cmds.map (run_command exec)).any fun r => !r.success) <;> simp

/-- Claim C8 (counterexample): `generate_bmx` is not pure in its stated
inputs.  Starting from an already-finalized entry `(A.mxf, frames 50/325)`,
running it with the global handle set to 24 rewrites the entry's frame
fields (mutation), and the command strings produced for the identical
(entries, output dir, executable) arguments differ between handle settings
0 and 24 — state outside the stated inputs. -/
theorem c8_builder_not_pure :
    (generate_bmx (fun _ => some (25:ℚ)) (some 24)
        [CutClip.mk "A.mxf" 2 13 50 325] "out" "bmx").1.2
      ≠ [CutClip.mk "A.mxf" 2 13 50 325] ∧
    (generate_bmx (fun _ => some (25:ℚ)) (some 0)
        [CutClip.mk "A.mxf" 2 13 50 325] "out" "bmx").1.1
      ≠ (generate_bmx (fun _ => some (25:ℚ)) (some 24)
        [CutClip.mk "A.mxf" 2 13 50 325] "out" "bmx").1.1 := by
  have h24 : apply_handle (fun _ => some (25:ℚ)) (some 24) [CutClip.mk "A.mxf" 2 13 50 325]
      = ([CutClip.mk "A.mxf" 2 13 26 373], none) := by
    norm_num [apply_handle, cutFrames, pyRound]
  have h0 : apply_handle (fun _ => some (25:ℚ)) (some 0) [CutClip.mk "A.mxf" 2 13 50 325]
      = ([CutClip.mk "A.mxf" 2 13 50 325], none) := by
    norm_num [apply_handle, cutFrames, pyRound]
  constructor
  · simp only [generate_bmx, h24]
    decide
  · simp only [generate_bmx, h24, h0]
    decide

/-- Claim C8 (amended): when no exception occurs, the command strings are a
pure function of the UPDATED entries (after the frame fields have been
rewritten by handle application), the output directory and the executable
path: `generate_bmx` returns exactly the per-entry builder mapped over the
entry list produced by `apply_handle`. -/
theorem c8_amended_cmds_from_updated (lookup : String → Option ℚ) (handle : Option ℤ)
    (clips : List CutClip) (out bmx : String) (cmds : List String) (clips2 : List CutClip)
    (heq : generate_bmx lookup handle clips out bmx = ((cmds, clips2), none)) :
    cmds = clips2.map (buildCmd bmx out) ∧ clips2 = (apply_handle lookup handle clips).1 := by
  simp only [generate_bmx] at heq
  cases h2 : (apply_handle lookup handle clips).2 with
  | some e =>
    rw [h2] at heq
    simp at heq
  | none =>
    rw [h2] at heq
    simp only [Prod.mk.injEq] at heq
    obtain ⟨⟨hcmds, hclips⟩, -⟩ := heq
    constructor
    · rw [← hcmds, ← hclips]
    · exact hclips.symm

/-- Witness for the amended C8: with rate 25 and handle 24 the clip
`(2s, 13s)` is finalized to frames `26/373`, and the single command string
is exactly the builder applied to that updated entry. -/
theorem c8_witness :
    ["bmx -t op1a -o \"out/A.mxf\" --start  26  --dur  373  \"A.mxf\""]
        = [CutClip.mk "A.mxf" 2 13 26 373].map (buildCmd "bmx" "out") ∧
    [CutClip.mk "A.mxf" 2 13 26 373]
        = (apply_handle (fun _ => some (25:ℚ)) (some 24) [CutClip.mk "A.mxf" 2 13 0 0]).1 :=
  c8_amended_cmds_from_updated (fun _ => some (25:ℚ)) (some 24)
    [CutClip.mk "A.mxf" 2 13 0 0] "out" "bmx"
    ["bmx -t op1a -o \"out/A.mxf\" --start  26  --dur  373  \"A.mxf\""]
    [CutClip.mk "A.mxf" 2 13 26 373]
    (by
      have h : apply_handle (fun _ => some (25:ℚ)) (some 24) [CutClip.mk "A.mxf" 2 13 0 0]
          = ([CutClip.mk "A.mxf" 2 13 26 373], none) := by
        norm_num [apply_handle, cutFrames, pyRound]
      simp only [generate_bmx, h]
      decide)
